import Mathlib

/-!
Shallow embedding of `src/Train/Project.py` (COCOMO-81 effort-prediction
pipeline) and proofs about it.

A pandas row (a `Series`) is embedded as an association list from column
names to cell values; `col in row` is membership of the key, `row[col]`
is lookup.  Exact rational arithmetic stands in for Python floats; the
real-valued parts of the formula (`np.log1p`, the float power `**`) are
embedded with `Real.log` and real exponentiation.
-/

namespace Project

/-- A cell value of a dataframe row: numeric or string (the `dev_mode`
column holds strings, everything else numbers). -/
inductive Val where
  | num (q : ℚ)
  | str (s : String)
deriving DecidableEq, Repr

/-- A dataframe row: association list from column name to value,
first binding wins (as in a pandas Series index). -/
def Row : Type := List (String × Val)

instance : DecidableEq Row := by unfold Row; infer_instance

instance : Append Row := ⟨fun a b => List.append a b⟩

/-- `row[k]` / `k in row`: lookup of a column in a row. -/
def Row.find (r : Row) (k : String) : Option Val :=
  List.lookup k r

/-- Numeric content of a cell, `none` when absent or non-numeric. -/
def Row.findNum (r : Row) (k : String) : Option ℚ :=
  match r.find k with
  | some (Val.num q) => some q
  | _ => none

/-- Numeric content of a cell with pandas-lookup semantics collapsed to
a default of `0` (used only under hypotheses that the cell is present). -/
def Row.getNum (r : Row) (k : String) : ℚ :=
  (r.findNum k).getD 0

/-- The fifteen COCOMO cost-driver column names (source line 25). -/
def cost_drivers : List String :=
  ["rely", "data", "cplx", "time", "stor", "virt", "turn",
   "acap", "aexp", "pcap", "vexp", "lexp", "modp", "tool", "sced"]

/-- Development-mode coefficient selection of `calculate_cocomo_effort`
(source lines 112-128): the one-hot indicator columns are consulted
first, then the raw `dev_mode` string, defaulting to the embedded pair
`(3.6, 1.20)` when the string is not `organic`/`semidetached` or when no
mode information is present at all. -/
def cocomoCoeffs (row : Row) : ℚ × ℚ :=
  if row.find "mode_organic" = some (Val.num 1) then (24/10, 105/100)
  else if row.find "mode_semidetached" = some (Val.num 1) then (3, 112/100)
  else if row.find "mode_embedded" = some (Val.num 1) then (36/10, 12/10)
  else
    match row.find "dev_mode" with
    | some v =>
        if v = Val.str "organic" then (24/10, 105/100)
        else if v = Val.str "semidetached" then (3, 112/100)
        else (36/10, 12/10)
    | none => (36/10, 12/10)

/-- The effort-multiplier loop of `calculate_cocomo_effort` (source
lines 131-134): fold over the fifteen driver names, multiplying in the
rating exactly when the column is present on the row. -/
def emFold (row : Row) (ds : List String) (acc : ℚ) : ℚ :=
  match ds with
  | [] => acc
  | d :: rest =>
      match row.find d with
      | some (Val.num q) => emFold row rest (acc * q)
      | _ => emFold row rest acc

/-- Effort multiplier `em` of `calculate_cocomo_effort`: starts at `1.0`
and multiplies in every cost-driver rating present on the row. -/
def em (row : Row) : ℚ := emFold row cost_drivers 1

/-- `row['loc']` as used at source line 137. -/
def kloc (row : Row) : ℚ := row.getNum "loc"

/-- `calculate_cocomo_effort` (source lines 111-140):
`np.log1p(a * kloc ** b * em)` with `(a, b)` chosen from the mode. -/
noncomputable def calculate_cocomo_effort (row : Row) : ℝ :=
  let ab := cocomoCoeffs row
  Real.log (1 + (ab.1 : ℝ) * (kloc row : ℝ) ^ (ab.2 : ℝ) * (em row : ℝ))

/-- The cost-driver ratings present on a row, in driver order. -/
def presentDriverVals (row : Row) : List ℚ :=
  cost_drivers.filterMap row.findNum

/-- No cost-driver cell of the row holds a string (a string rating
would make Python's `em *= row[driver]` raise; rows of the dataset hold
numeric ratings). -/
def noStrDrivers (row : Row) : Bool :=
  cost_drivers.all fun d =>
    match row.find d with
    | some (Val.str _) => false
    | _ => true

/-- The columns `calculate_cocomo_effort` reads. -/
def cocomoInputKeys : List String :=
  ["mode_organic", "mode_semidetached", "mode_embedded", "dev_mode", "loc"]
    ++ cost_drivers

/-- A sample dataset row with `loc`, a known mode and all fifteen
drivers present (used to instantiate proved theorems concretely). -/
def sampleFullRow : Row :=
  [("loc", Val.num 10), ("dev_mode", Val.str "organic"),
   ("rely", Val.num 2), ("data", Val.num 3), ("cplx", Val.num 4),
   ("time", Val.num 5), ("stor", Val.num 6), ("virt", Val.num 7),
   ("turn", Val.num 8), ("acap", Val.num 9), ("aexp", Val.num 10),
   ("pcap", Val.num 11), ("vexp", Val.num 12), ("lexp", Val.num 13),
   ("modp", Val.num 14), ("tool", Val.num 15), ("sced", Val.num 16)]

/-! ### Evaluator (source lines 158-168)

`evaluate_model` calls sklearn's `mean_absolute_error`,
`mean_squared_error` and `r2_score`.  Those bodies are library code not
in `src/`; they are modelled from the spec: §4.6 gives
MAE = mean absolute deviation, RMSE = square root of the mean squared
deviation, and R² = 1 − (sum of squared residuals / total sum of squares
around the true mean), with a numerically undefined R² (zero total sum
of squares) propagated as a NaN-like value, embedded here as `none`. -/

/-- Arithmetic mean of a list of rationals. -/
def listMean (l : List ℚ) : ℚ := l.sum / l.length

/-- Pointwise absolute deviations of predictions from true values. -/
def absErrs (y p : List ℚ) : List ℚ :=
  (y.zip p).map fun ab => |ab.1 - ab.2|

/-- Pointwise squared deviations of predictions from true values. -/
def sqErrs (y p : List ℚ) : List ℚ :=
  (y.zip p).map fun ab => (ab.1 - ab.2) ^ 2

/-- Modelled from the spec: sklearn's `mean_absolute_error`
(mean absolute deviation). -/
def mean_absolute_error (y p : List ℚ) : ℚ :=
  (absErrs y p).sum / y.length

/-- Modelled from the spec: sklearn's `mean_squared_error`
(mean squared deviation). -/
def mean_squared_error (y p : List ℚ) : ℚ :=
  (sqErrs y p).sum / y.length

/-- Sum of squared residuals. -/
def ssres (y p : List ℚ) : ℚ := (sqErrs y p).sum

/-- Total sum of squares of the true values around their mean. -/
def sstot (y : List ℚ) : ℚ :=
  (y.map fun a => (a - listMean y) ^ 2).sum

/-- Modelled from the spec: sklearn's `r2_score`,
R² = 1 − ssres/sstot; when the true values have zero variance the ratio
is numerically undefined (NaN), embedded as `none`. -/
def r2_score (y p : List ℚ) : Option ℚ :=
  if sstot y = 0 then none else some (1 - ssres y p / sstot y)

/-- The metric triple returned by `evaluate_model`. -/
structure EvalResult where
  mae : ℚ
  rmse : ℝ
  r2 : Option ℚ

/-- `evaluate_model` (source lines 158-168): returns the dictionary
`{mae, rmse, r2}` where `rmse = np.sqrt(mean_squared_error(...))`. -/
noncomputable def evaluate_model (y p : List ℚ) : EvalResult :=
  { mae := mean_absolute_error y p
    rmse := Real.sqrt (mean_squared_error y p)
    r2 := r2_score y p }

/-! ### One-hot development-mode encoding (source line 29)

`pd.get_dummies(data, columns=['dev_mode'], prefix=['mode'])` creates,
for each category value `v` occurring in the column, an indicator column
`mode_v` that is 1 exactly on the rows whose `dev_mode` equals `v`; the
feature builder then selects the three known indicator columns
`mode_embedded`, `mode_organic`, `mode_semidetached` (source line 34). -/

/-- Indicator of `mode_c` for a row whose `dev_mode` string is `m`. -/
def modeIndicator (m c : String) : ℚ := if m = c then 1 else 0

/-- The three selected indicator cells `(mode_embedded, mode_organic,
mode_semidetached)` of a row (a row with no string `dev_mode` matches no
category, hence all indicators 0, as `get_dummies` does for NaN). -/
def oneHotMode (row : Row) : ℚ × ℚ × ℚ :=
  match row.find "dev_mode" with
  | some (Val.str m) =>
      (modeIndicator m "embedded", modeIndicator m "organic",
       modeIndicator m "semidetached")
  | _ => (0, 0, 0)

/-- The three known development-mode categories. -/
def knownModes : List String := ["embedded", "organic", "semidetached"]

/-- How many of the three indicator cells are 1. -/
def oneHotOnes (row : Row) : ℕ :=
  (if (oneHotMode row).1 = 1 then 1 else 0)
    + (if (oneHotMode row).2.1 = 1 then 1 else 0)
    + (if (oneHotMode row).2.2 = 1 then 1 else 0)

/-! ### Train/test split (source line 80)

`train_test_split(X, y_log, test_size=0.2, random_state=42)` follows
sklearn's documented semantics: with `n` samples it draws a permutation
of `0..n-1` from the seeded RNG, takes the first `ceil(test_size * n)`
positions as the test partition and the next `floor((1-test_size) * n)`
as the train partition.  The seeded RNG is deterministic: the same seed
and the same `n` always yield the same permutation, which is passed here
as the `perm` argument. -/

/-- Number of test samples: `ceil(test_size * n)`. -/
def nTest (q : ℚ) (n : ℕ) : ℕ := Nat.ceil (q * n)

/-- Number of train samples: `floor((1 - test_size) * n)`. -/
def nTrain (q : ℚ) (n : ℕ) : ℕ := Nat.floor ((1 - q) * n)

/-- `train_test_split` on row indices: returns
`(train indices, test indices)`. -/
def train_test_split (n : ℕ) (perm : List ℕ) (q : ℚ) : List ℕ × List ℕ :=
  ((perm.drop (nTest q n)).take (nTrain q n), perm.take (nTest q n))

/-- Row selection by index list (`data.loc[indices]`). -/
def selectRows (data : List Row) (idx : List ℕ) : List Row :=
  idx.map fun i => data.getD i []

/-! ### Best-model selection and persistence (source lines 239-260) -/

/-- Tail of Python's `min(results, key=...)`: scan the remaining
key/value pairs keeping the first strictly smaller value. -/
def pythonMinGo (k : String) (v : ℚ) : List (String × ℚ) → String
  | [] => k
  | (k', v') :: t => if v' < v then pythonMinGo k' v' t else pythonMinGo k v t

/-- Python's `min(results, key=lambda x: results[x]['rmse'])`: first key
attaining the minimal value, in insertion order. -/
def pythonMinKey : List (String × ℚ) → String
  | [] => ""
  | (k, v) :: t => pythonMinGo k v t

/-- The `results` dictionary in insertion order (source lines 171-175),
reduced to its RMSE entries, which are all the selection reads. -/
def resultsList (rC rL rD rF : ℚ) : List (String × ℚ) :=
  [("COCOMO I", rC), ("Linear Regression", rL),
   ("Decision Tree", rD), ("Random Forest", rF)]

/-- `best_model` (source line 239). -/
def best_model (rC rL rD rF : ℚ) : String :=
  pythonMinKey (resultsList rC rL rD rF)

/-- A file written by the persistence step. -/
inductive Artifact where
  | modelFile (name : String)
  | scalerFile
deriving DecidableEq, Repr

/-- The artifacts written at source lines 254-260: the winning model and
the scaler when the winner is a learned model, nothing otherwise. -/
def savedArtifacts (rC rL rD rF : ℚ) : List Artifact :=
  if best_model rC rL rD rF ≠ "COCOMO I" then
    [Artifact.modelFile (best_model rC rL rD rF), Artifact.scalerFile]
  else []

/-! ### Imputer, scaler fit and pipeline (source lines 44-61, 143-147) -/

/-- One feature column of `X`: a cell per row, `none` for a missing
(NaN) value. -/
def colOf (data : List Row) (name : String) : List (Option ℚ) :=
  data.map fun r => r.findNum name

/-- Insertion into a sorted list of rationals. -/
def insertQ (x : ℚ) : List ℚ → List ℚ
  | [] => [x]
  | y :: t => if x ≤ y then x :: y :: t else y :: insertQ x t

/-- Insertion sort (stands in for the sort inside the median; the
median only depends on the sorted order, not the algorithm). -/
def sortQ : List ℚ → List ℚ
  | [] => []
  | x :: t => insertQ x (sortQ t)

/-- Modelled from the spec: pandas `Series.median()` over the observed
values — middle element of the sorted values, or the average of the two
middle elements for an even count; `none` (NaN) for an empty list. -/
def medianQ (l : List ℚ) : Option ℚ :=
  if l = [] then none
  else
    let s := sortQ l
    let n := l.length
    some (if n % 2 = 1 then s.getD (n / 2) 0
          else (s.getD (n / 2 - 1) 0 + s.getD (n / 2) 0) / 2)

/-- The imputation loop (source lines 44-49) on one numeric column:
`X[col].fillna(X[col].median(), inplace=True)` — every missing cell is
replaced by the median of the observed cells; an all-missing column is
left as-is (its median is NaN and `fillna(NaN)` changes nothing). -/
def imputeCol (c : List (Option ℚ)) : List (Option ℚ) :=
  match medianQ (c.filterMap id) with
  | none => c
  | some m => c.map fun x => some (x.getD m)

/-- Mean and population variance of a list, the `(mean_, var_)` pair a
standard scaler retains for a feature (its `scale_` is `sqrt var_`). -/
def scalerMeanVar (l : List ℚ) : ℚ × ℚ :=
  (listMean l, listMean (l.map fun x => (x - listMean l) ^ 2))

/-- `numeric_features` (source line 57): the float64/int64 columns of
`X`, i.e. `loc` and the fifteen cost drivers — the boolean one-hot
columns are excluded by the dtype filter. -/
def scaledColNames : List String := "loc" :: cost_drivers

/-- Fitting the scaler on one column (source line 61): defined when no
NaN remains (sklearn rejects NaN input), returning the retained
`(mean_, var_)` pair computed from every row of the column. -/
def fitScalerCol (c : List (Option ℚ)) : Option (ℚ × ℚ) :=
  if c.all Option.isSome then some (scalerMeanVar (c.filterMap id)) else none

/-- The scaler statistics the script retains for a feature: fit on the
whole imputed column, before any split (source lines 55-61 precede
line 80). -/
def pipelineScalerStats (data : List Row) (name : String) : Option (ℚ × ℚ) :=
  fitScalerCol (imputeCol (colOf data name))

/-- Modelled from the spec (§9's leak-free alternative, for contrast):
scaler statistics fit on a training subset of the rows only. -/
def trainOnlyScalerStats (data : List Row) (trainIdx : List ℕ)
    (name : String) : Option (ℚ × ℚ) :=
  fitScalerCol (imputeCol (colOf (selectRows data trainIdx) name))

/-- The values the run of the script leaves behind, as far as the
claims are concerned.  `dataOut` is the original dataframe's columns
(the new `effort_cocomo` column appended at source line 143 is the
separate `effortCol`, pandas stores it alongside the existing ones);
`scaledX` is the imputed-and-standardized feature matrix, with the
standardization step abstracted as the `scaleFn` argument of
`runPipeline`. -/
structure PipelineOut where
  dataOut : List Row
  effortCol : List ℝ
  scaledX : List (String × List ℝ)
  targetY : List ℚ
  testIdx : List ℕ
  cocomoPred : List ℝ

/-- The script's dataflow (source lines 32-61, 80, 143-147): build `X`
as a copy of the selected columns of `data`, impute and standardize the
copy, split, apply `calculate_cocomo_effort` to the raw `data` rows and
read the test rows' values off that column by the test indices. -/
noncomputable def runPipeline (data : List Row) (perm : List ℕ)
    (scaleFn : List ℚ → List ℝ) : PipelineOut :=
  let x1 := scaledColNames.map fun name => (name, imputeCol (colOf data name))
  let x2 := x1.map fun nc => (nc.1, scaleFn (nc.2.map fun x => x.getD 0))
  let split := train_test_split data.length perm (1/5)
  let effortCol := data.map calculate_cocomo_effort
  { dataOut := data
    effortCol := effortCol
    scaledX := x2
    targetY := data.map fun r => r.getNum "actual"
    testIdx := split.2
    cocomoPred := split.2.map fun i => effortCol.getD i 0 }


/-! ## Supporting lemmas -/

theorem emFold_eq_prod (row : Row) (ds : List String) (acc : ℚ)
    (hnum : ∀ d ∈ ds, ∀ s, row.find d ≠ some (Val.str s)) :
    emFold row ds acc = acc * (ds.filterMap row.findNum).prod := by
  induction ds generalizing acc with
  | nil => simp [emFold]
  | cons d rest ih =>
      have hd : ∀ s, row.find d ≠ some (Val.str s) := hnum d (by simp)
      have hrest : ∀ e ∈ rest, ∀ s, row.find e ≠ some (Val.str s) :=
        fun e he => hnum e (by simp [he])
      cases hfd : row.find d with
      | none =>
          simp [emFold, hfd, List.filterMap, Row.findNum, ih _ hrest]
      | some v =>
          cases v with
          | num q =>
              simp only [emFold, hfd]
              rw [ih _ hrest]
              simp [Row.findNum, hfd, mul_assoc]
          | str s => exact absurd hfd (hd s)

theorem emFold_congr (r₁ r₂ : Row) (ds : List String) (acc : ℚ)
    (h : ∀ d ∈ ds, r₁.find d = r₂.find d) :
    emFold r₁ ds acc = emFold r₂ ds acc := by
  induction ds generalizing acc with
  | nil => rfl
  | cons d rest ih =>
      have hd : r₁.find d = r₂.find d := h d (by simp)
      have hrest : ∀ e ∈ rest, r₁.find e = r₂.find e :=
        fun e he => h e (by simp [he])
      simp only [emFold, hd]
      cases r₂.find d with
      | none => exact ih _ hrest
      | some v => cases v <;> exact ih _ hrest

theorem list_sum_eq_range (l : List ℚ) :
    l.sum = ∑ i in Finset.range l.length, l.getD i 0 := by
  induction l with
  | nil => simp
  | cons a t ih =>
      rw [List.sum_cons, List.length_cons, Finset.sum_range_succ']
      simp only [List.getD_cons_succ, List.getD_cons_zero]
      rw [ih]; ring

theorem absErrs_nonneg (y p : List ℚ) : 0 ≤ (absErrs y p).sum := by
  apply List.sum_nonneg
  intro x hx
  simp only [absErrs, List.mem_map] at hx
  obtain ⟨ab, _, rfl⟩ := hx
  exact abs_nonneg _

theorem sqErrs_nonneg (y p : List ℚ) : 0 ≤ (sqErrs y p).sum := by
  apply List.sum_nonneg
  intro x hx
  simp only [sqErrs, List.mem_map] at hx
  obtain ⟨ab, _, rfl⟩ := hx
  exact sq_nonneg _

/-- Cauchy-Schwarz specialised to lists: the squared sum of absolute
deviations is at most the length times the sum of squared deviations. -/
theorem sq_sum_absErrs_le (y p : List ℚ) :
    ((absErrs y p).sum) ^ 2 ≤ (y.zip p).length * (sqErrs y p).sum := by
  set z := y.zip p with hz
  have habs : (absErrs y p).sum
      = ∑ i in Finset.range z.length, |((z.getD i (0, 0)).1 - (z.getD i (0, 0)).2)| := by
    rw [list_sum_eq_range]
    have hlen : (absErrs y p).length = z.length := by
      simp [absErrs, hz, List.length_zip]
    rw [hlen]
    refine Finset.sum_congr rfl fun i _ => ?_
    have := List.getD_map (l := z) (f := fun ab : ℚ × ℚ => |ab.1 - ab.2|)
      (d := ((0 : ℚ), (0 : ℚ))) (n := i)
    simpa [absErrs] using this
  have hsq : (sqErrs y p).sum
      = ∑ i in Finset.range z.length, ((z.getD i (0, 0)).1 - (z.getD i (0, 0)).2) ^ 2 := by
    rw [list_sum_eq_range]
    have hlen : (sqErrs y p).length = z.length := by
      simp [sqErrs, hz, List.length_zip]
    rw [hlen]
    refine Finset.sum_congr rfl fun i _ => ?_
    have := List.getD_map (l := z) (f := fun ab : ℚ × ℚ => (ab.1 - ab.2) ^ 2)
      (d := ((0 : ℚ), (0 : ℚ))) (n := i)
    simpa [sqErrs] using this
  rw [habs, hsq]
  have hcs := Finset.sum_mul_sq_le_sq_mul_sq (Finset.range z.length)
    (fun _ => (1 : ℚ)) (fun i => |((z.getD i (0, 0)).1 - (z.getD i (0, 0)).2)|)
  simpa [sq_abs] using hcs

theorem pythonMinGo_spec (t : List (String × ℚ)) (k : String) (v : ℚ) :
    ∃ v', ((pythonMinGo k v t = k ∧ v' = v) ∨ (pythonMinGo k v t, v') ∈ t)
      ∧ v' ≤ v ∧ ∀ kv ∈ t, v' ≤ kv.2 := by
  induction t generalizing k v with
  | nil => exact ⟨v, Or.inl ⟨rfl, rfl⟩, le_refl v, by simp⟩
  | cons kv' t ih =>
      obtain ⟨k', v'⟩ := kv'
      by_cases h : v' < v
      · obtain ⟨w, hmem, hle, hall⟩ := ih k' v'
        refine ⟨w, ?_, hle.trans h.le, ?_⟩
        · rcases hmem with ⟨heq, rfl⟩ | hmem
          · exact Or.inr (by simp [pythonMinGo, h, heq])
          · exact Or.inr (by simp [pythonMinGo, h]; right; exact hmem)
        · intro kv hkv
          rcases List.mem_cons.mp hkv with rfl | hkv
          · exact hle
          · exact hall kv hkv
      · obtain ⟨w, hmem, hle, hall⟩ := ih k v
        refine ⟨w, ?_, hle, ?_⟩
        · rcases hmem with ⟨heq, rfl⟩ | hmem
          · exact Or.inl ⟨by simp [pythonMinGo, h, heq], rfl⟩
          · exact Or.inr (by simp [pythonMinGo, h]; right; exact hmem)
        · intro kv hkv
          rcases List.mem_cons.mp hkv with rfl | hkv
          · exact hle.trans (not_lt.mp h)
          · exact hall kv hkv

theorem noStrDrivers_forall (row : Row) (h : noStrDrivers row = true) :
    ∀ d ∈ cost_drivers, ∀ s, row.find d ≠ some (Val.str s) := by
  intro d hd s hs
  have := List.all_eq_true.mp h d hd
  rw [hs] at this
  exact absurd this (by simp)

theorem filterMap_findNum_eq (row : Row) (ds : List String)
    (hnum : ∀ d ∈ ds, ∀ s, row.find d ≠ some (Val.str s)) :
    ds.filterMap row.findNum
      = (ds.filter fun d => (row.find d).isSome).map row.getNum := by
  induction ds with
  | nil => rfl
  | cons d rest ih =>
      have hd := hnum d (by simp)
      have hrest : ∀ e ∈ rest, ∀ s, row.find e ≠ some (Val.str s) :=
        fun e he => hnum e (by simp [he])
      cases hfd : row.find d with
      | none =>
          simp [List.filterMap_cons, List.filter_cons, Row.findNum, hfd,
            ih hrest]
      | some v =>
          cases v with
          | num q =>
              simp [List.filterMap_cons, List.filter_cons, Row.findNum,
                Row.getNum, hfd, ih hrest]
          | str s => exact absurd hfd (hd s)

/-! ## The claims -/

/-- C1: for every row, the parametric estimator returns
`log(1 + a * loc^b * EM)` where `EM` is the product of exactly those of
the fifteen cost-driver ratings that are present on the row (an absent
driver is silently excluded from the product), and a row with all
fifteen drivers present yields the full fifteen-factor product. -/
theorem c1_cocomo_formula (row : Row) (hnum : noStrDrivers row = true) :
    calculate_cocomo_effort row
        = Real.log (1 + ((cocomoCoeffs row).1 : ℝ)
            * (kloc row : ℝ) ^ (((cocomoCoeffs row).2 : ℚ) : ℝ)
            * ((presentDriverVals row).prod : ℝ))
      ∧ presentDriverVals row
          = (cost_drivers.filter fun d => (row.find d).isSome).map row.getNum
      ∧ ((∀ d ∈ cost_drivers, (row.find d).isSome) →
            presentDriverVals row = cost_drivers.map row.getNum
              ∧ (presentDriverVals row).length = 15) := by
  have hforall := noStrDrivers_forall row hnum
  have hem : em row = (presentDriverVals row).prod := by
    have := emFold_eq_prod row cost_drivers 1 hforall
    simpa [em, presentDriverVals] using this
  have hfm := filterMap_findNum_eq row cost_drivers hforall
  refine ⟨?_, ?_, ?_⟩
  · simp [calculate_cocomo_effort, hem]
  · exact hfm
  · intro hall
    have hfilter : (cost_drivers.filter fun d => (row.find d).isSome)
        = cost_drivers := List.filter_eq_self.mpr (by
          intro d hd
          simpa using hall d hd)
    constructor
    · rw [presentDriverVals, hfm, hfilter]
    · rw [presentDriverVals, hfm, hfilter]
      simp [cost_drivers]

/-- C1 witness: the concrete row `sampleFullRow` (with `loc`, a known
mode and all fifteen drivers) satisfies the hypotheses of
`c1_cocomo_formula`, whose conclusion then holds on it. -/
theorem c1_cocomo_formula_witness :
    noStrDrivers sampleFullRow = true
    ∧ (calculate_cocomo_effort sampleFullRow
        = Real.log (1 + ((cocomoCoeffs sampleFullRow).1 : ℝ)
            * (kloc sampleFullRow : ℝ)
              ^ (((cocomoCoeffs sampleFullRow).2 : ℚ) : ℝ)
            * ((presentDriverVals sampleFullRow).prod : ℝ)))
    ∧ (presentDriverVals sampleFullRow).length = 15 := by
  refine ⟨by decide, ?_, ?_⟩
  · exact (c1_cocomo_formula sampleFullRow (by decide)).1
  · exact ((c1_cocomo_formula sampleFullRow (by decide)).2.2 (by decide)).2

/-- C2: the coefficient pair is selected from the development mode —
organic `(2.4, 1.05)`, semidetached `(3.0, 1.12)`, embedded
`(3.6, 1.20)` — whether given by a one-hot indicator or by the
`dev_mode` string, and an unknown or absent mode yields the embedded
pair. -/
theorem c2_cocomo_coeffs (row : Row) :
    (row.find "mode_organic" = some (Val.num 1) →
        cocomoCoeffs row = (24/10, 105/100))
  ∧ (row.find "mode_organic" ≠ some (Val.num 1) →
      row.find "mode_semidetached" = some (Val.num 1) →
        cocomoCoeffs row = (3, 112/100))
  ∧ (row.find "mode_organic" ≠ some (Val.num 1) →
      row.find "mode_semidetached" ≠ some (Val.num 1) →
      row.find "mode_embedded" = some (Val.num 1) →
        cocomoCoeffs row = (36/10, 12/10))
  ∧ (row.find "mode_organic" ≠ some (Val.num 1) →
      row.find "mode_semidetached" ≠ some (Val.num 1) →
      row.find "mode_embedded" ≠ some (Val.num 1) →
        (row.find "dev_mode" = some (Val.str "organic") →
            cocomoCoeffs row = (24/10, 105/100))
      ∧ (row.find "dev_mode" = some (Val.str "semidetached") →
            cocomoCoeffs row = (3, 112/100))
      ∧ (∀ v, row.find "dev_mode" = some v →
            v ≠ Val.str "organic" → v ≠ Val.str "semidetached" →
            cocomoCoeffs row = (36/10, 12/10))
      ∧ (row.find "dev_mode" = none →
            cocomoCoeffs row = (36/10, 12/10))) := by
  refine ⟨?_, ?_, ?_, ?_⟩
  · intro h1
    simp [cocomoCoeffs, h1]
  · intro h1 h2
    simp [cocomoCoeffs, h1, h2]
  · intro h1 h2 h3
    simp [cocomoCoeffs, h1, h2, h3]
  · intro h1 h2 h3
    refine ⟨?_, ?_, ?_, ?_⟩
    · intro hd
      simp [cocomoCoeffs, h1, h2, h3, hd]
    · intro hd
      simp [cocomoCoeffs, h1, h2, h3, hd]
    · intro v hd hvo hvs
      simp [cocomoCoeffs, h1, h2, h3, hd, hvo, hvs]
    · intro hd
      simp [cocomoCoeffs, h1, h2, h3, hd]

/-- C2 witness: concrete rows exercising each selection case — one-hot
semidetached, string organic, an unknown mode string, and a row with no
mode information — get the pairs the claim requires. -/
theorem c2_cocomo_coeffs_witness :
    cocomoCoeffs [("mode_semidetached", Val.num 1)] = (3, 112/100)
  ∧ cocomoCoeffs [("dev_mode", Val.str "organic")] = (24/10, 105/100)
  ∧ cocomoCoeffs [("dev_mode", Val.str "waterfall")] = (36/10, 12/10)
  ∧ cocomoCoeffs ([("loc", Val.num 7)] : Row) = (36/10, 12/10) := by
  refine ⟨?_, ?_, ?_, ?_⟩
  · exact (c2_cocomo_coeffs _).2.1 (by decide) (by decide)
  · exact ((c2_cocomo_coeffs _).2.2.2 (by decide) (by decide) (by decide)).1
      (by decide)
  · exact ((c2_cocomo_coeffs _).2.2.2 (by decide) (by decide)
      (by decide)).2.2.1 (Val.str "waterfall") (by decide) (by decide)
      (by decide)
  · exact ((c2_cocomo_coeffs _).2.2.2 (by decide) (by decide)
      (by decide)).2.2.2 (by decide)

/-- C9: the parametric estimator is deterministic — it is a pure
function of the mode, `loc` and cost-driver cells of its row, so any
two rows agreeing on those columns (in particular, identical rows on
repeated calls) produce identical log-effort values. -/
theorem c9_cocomo_deterministic (r₁ r₂ : Row)
    (h : ∀ k ∈ cocomoInputKeys, r₁.find k = r₂.find k) :
    calculate_cocomo_effort r₁ = calculate_cocomo_effort r₂ := by
  have hmo : r₁.find "mode_organic" = r₂.find "mode_organic" :=
    h _ (by simp [cocomoInputKeys])
  have hms : r₁.find "mode_semidetached" = r₂.find "mode_semidetached" :=
    h _ (by simp [cocomoInputKeys])
  have hme : r₁.find "mode_embedded" = r₂.find "mode_embedded" :=
    h _ (by simp [cocomoInputKeys])
  have hdm : r₁.find "dev_mode" = r₂.find "dev_mode" :=
    h _ (by simp [cocomoInputKeys])
  have hloc : r₁.find "loc" = r₂.find "loc" :=
    h _ (by simp [cocomoInputKeys])
  have hco : cocomoCoeffs r₁ = cocomoCoeffs r₂ := by
    unfold cocomoCoeffs
    rw [hmo, hms, hme, hdm]
  have hkl : kloc r₁ = kloc r₂ := by
    unfold kloc Row.getNum Row.findNum
    rw [hloc]
  have hem : em r₁ = em r₂ := by
    unfold em
    exact emFold_congr r₁ r₂ cost_drivers 1 fun d hd =>
      h d (by simp [cocomoInputKeys, hd])
  unfold calculate_cocomo_effort
  rw [hco, hkl, hem]

/-- C9 witness: two concrete rows that agree on every column the
estimator reads (one has an extra unrelated column and a different
binding order) yield the same effort. -/
theorem c9_cocomo_deterministic_witness :
    calculate_cocomo_effort [("loc", Val.num 5), ("dev_mode", Val.str "embedded")]
      = calculate_cocomo_effort
          [("dev_mode", Val.str "embedded"), ("loc", Val.num 5),
           ("note", Val.str "copy")] :=
  c9_cocomo_deterministic _ _ (by decide)

/-- C4: a row whose `dev_mode` is one of the three known categories has
exactly one 1 among the three selected indicator cells, and a row whose
`dev_mode` is any other string has all three indicators 0. -/
theorem c4_onehot_partition (row : Row) (m : String)
    (hm : row.find "dev_mode" = some (Val.str m)) :
    (m ∈ knownModes → oneHotOnes row = 1)
  ∧ (m ∉ knownModes → oneHotMode row = (0, 0, 0)) := by
  constructor
  · intro hk
    have : m = "embedded" ∨ m = "organic" ∨ m = "semidetached" := by
      simpa [knownModes] using hk
    rcases this with rfl | rfl | rfl <;>
      simp [oneHotOnes, oneHotMode, hm, modeIndicator]
  · intro hk
    have he : m ≠ "embedded" := fun h => hk (by simp [knownModes, h])
    have ho : m ≠ "organic" := fun h => hk (by simp [knownModes, h])
    have hs : m ≠ "semidetached" := fun h => hk (by simp [knownModes, h])
    simp [oneHotMode, hm, modeIndicator, he, ho, hs]

/-- C4 witness: a row with mode `organic` gets exactly one indicator 1;
a row with the unknown mode `waterfall` gets all indicators 0. -/
theorem c4_onehot_partition_witness :
    oneHotOnes [("dev_mode", Val.str "organic")] = 1
  ∧ oneHotMode [("dev_mode", Val.str "waterfall")] = (0, 0, 0) :=
  ⟨(c4_onehot_partition _ "organic" (by decide)).1 (by decide),
   (c4_onehot_partition _ "waterfall" (by decide)).2 (by decide)⟩

/-- C8: splitting a 100-row dataset with `test_size = 0.2` produces a
train partition of exactly 80 rows and a test partition of exactly 20
rows, and the split is a deterministic function of the data and the
seeded permutation, so two runs with the same seed on the same data
produce identical partitions. -/
theorem c8_split_sizes (data : List Row) (perm : List ℕ)
    (hd : data.length = 100) (hp : perm.length = 100) :
    (train_test_split data.length perm (1/5)).1.length = 80
  ∧ (train_test_split data.length perm (1/5)).2.length = 20
  ∧ (selectRows data (train_test_split data.length perm (1/5)).1).length = 80
  ∧ (selectRows data (train_test_split data.length perm (1/5)).2).length = 20
  ∧ ∀ (data₂ : List Row) (perm₂ : List ℕ), data₂ = data → perm₂ = perm →
      train_test_split data₂.length perm₂ (1/5)
        = train_test_split data.length perm (1/5) := by
  have htest : nTest (1/5) data.length = 20 := by
    rw [hd]
    unfold nTest
    norm_num
  have htrain : nTrain (1/5) data.length = 80 := by
    rw [hd]
    unfold nTrain
    norm_num
  have h1 : (train_test_split data.length perm (1/5)).1.length = 80 := by
    simp only [train_test_split, List.length_take, List.length_drop]
    rw [htest, htrain, hp]
    decide
  have h2 : (train_test_split data.length perm (1/5)).2.length = 20 := by
    simp only [train_test_split, List.length_take]
    rw [htest, hp]
    decide
  refine ⟨h1, h2, ?_, ?_, ?_⟩
  · simpa [selectRows] using h1
  · simpa [selectRows] using h2
  · intro data₂ perm₂ hdd hpp
    rw [hdd, hpp]

/-- C8 witness: with 100 concrete rows and the identity permutation
(one valid value of the seeded permutation) the partitions have sizes
80 and 20 and the split reproduces itself. -/
theorem c8_split_sizes_witness :
    (train_test_split (List.replicate 100 ([] : Row)).length
        (List.range 100) (1/5)).1.length = 80
  ∧ (train_test_split (List.replicate 100 ([] : Row)).length
        (List.range 100) (1/5)).2.length = 20 := by
  have h := c8_split_sizes (List.replicate 100 []) (List.range 100)
    (by simp) (by simp)
  exact ⟨h.1, h.2.1⟩

/-- C5: among the four candidates the reporter selects one whose test
RMSE is minimal (Python's `min` takes the first minimal key in
insertion order, so ties go to the earlier candidate); when the
parametric formula wins nothing is persisted, and otherwise exactly the
winning learned estimator and the scaler are written. -/
theorem c5_best_model (rC rL rD rF : ℚ) :
    (∃ rb, (best_model rC rL rD rF, rb) ∈ resultsList rC rL rD rF
        ∧ rb ≤ rC ∧ rb ≤ rL ∧ rb ≤ rD ∧ rb ≤ rF)
  ∧ (best_model rC rL rD rF = "COCOMO I" →
      savedArtifacts rC rL rD rF = [])
  ∧ (best_model rC rL rD rF ≠ "COCOMO I" →
      savedArtifacts rC rL rD rF
          = [Artifact.modelFile (best_model rC rL rD rF),
             Artifact.scalerFile]
        ∧ best_model rC rL rD rF
            ∈ ["Linear Regression", "Decision Tree", "Random Forest"]) := by
  obtain ⟨w, hmem, hle, hall⟩ := pythonMinGo_spec
    [("Linear Regression", rL), ("Decision Tree", rD), ("Random Forest", rF)]
    "COCOMO I" rC
  have hbm : best_model rC rL rD rF
      = pythonMinGo "COCOMO I" rC
          [("Linear Regression", rL), ("Decision Tree", rD),
           ("Random Forest", rF)] := rfl
  have hL : w ≤ rL := hall ("Linear Regression", rL) (by simp)
  have hD : w ≤ rD := hall ("Decision Tree", rD) (by simp)
  have hF : w ≤ rF := hall ("Random Forest", rF) (by simp)
  refine ⟨⟨w, ?_, hle, hL, hD, hF⟩, ?_, ?_⟩
  · rcases hmem with ⟨heq, rfl⟩ | hmem
    · rw [hbm, heq]
      simp [resultsList]
    · rw [hbm]
      simp only [resultsList]
      simp at hmem ⊢
      tauto
  · intro hc
    simp [savedArtifacts, hc]
  · intro hc
    refine ⟨by simp [savedArtifacts, hc], ?_⟩
    rcases hmem with ⟨heq, rfl⟩ | hmem
    · exact absurd (hbm.trans heq) hc
    · rw [hbm]
      simp at hmem
      rcases hmem with ⟨h, _⟩ | ⟨h, _⟩ | ⟨h, _⟩ <;> simp [h]

/-- C5 witness: with RMSEs `(1, 2, 3, 4)` the parametric formula wins
and nothing is saved; with `(4, 2, 3, 1)` the random forest wins and
exactly the model file and the scaler are saved. -/
theorem c5_best_model_witness :
    best_model 1 2 3 4 = "COCOMO I"
  ∧ savedArtifacts 1 2 3 4 = []
  ∧ best_model 4 2 3 1 = "Random Forest"
  ∧ savedArtifacts 4 2 3 1
      = [Artifact.modelFile "Random Forest", Artifact.scalerFile] := by
  refine ⟨by decide, (c5_best_model 1 2 3 4).2.1 (by decide), by decide, ?_⟩
  have h := ((c5_best_model 4 2 3 1).2.2 (by decide)).1
  rw [h]
  decide

theorem ssres_self (y : List ℚ) : ssres y y = 0 := by
  induction y with
  | nil => rfl
  | cons a t ih =>
      simp only [ssres, sqErrs, List.zip_cons_cons, List.map_cons,
        List.sum_cons] at ih ⊢
      rw [ih]
      ring

theorem listMean_const (y : List ℚ) (c : ℚ) (hy : y ≠ [])
    (h : ∀ a ∈ y, a = c) : listMean y = c := by
  have hsum : y.sum = y.length • c := List.sum_eq_card_nsmul y c h
  have hn : (y.length : ℚ) ≠ 0 := by
    simpa using (List.length_pos.mpr hy).ne'
  rw [listMean, hsum, nsmul_eq_mul, mul_comm, mul_div_assoc,
    div_self hn, mul_one]

theorem sstot_const_zero (y : List ℚ) (c : ℚ) (hy : y ≠ [])
    (h : ∀ a ∈ y, a = c) : sstot y = 0 := by
  apply List.sum_eq_zero
  intro x hx
  simp only [List.mem_map] at hx
  obtain ⟨a, ha, rfl⟩ := hx
  rw [h a ha, listMean_const y c hy h]
  ring

/-- C6 counterexample: for the pair `y_true = y_pred = [1, 1]` the
claim requires R² to be exactly 1, but the true vector has zero total
sum of squares, so R² = 1 − ssres/sstot is numerically undefined
(`none`), not 1. -/
theorem c6_counterexample :
    (evaluate_model [(1 : ℚ), 1] [(1 : ℚ), 1]).r2 ≠ some 1 := by
  have h : r2_score [(1 : ℚ), 1] [(1 : ℚ), 1] = none := by
    have hss : sstot [(1 : ℚ), 1] = 0 := by
      norm_num [sstot, listMean]
    rw [r2_score, if_pos hss]
  show r2_score [(1 : ℚ), 1] [(1 : ℚ), 1] ≠ some 1
  rw [h]
  exact Option.noConfusion

/-- C6 (amended): for every pair of equal-length true/predicted
vectors, MAE and RMSE are non-negative and RMSE ≥ MAE; and R² equals
exactly 1 when the predicted vector equals the true vector, provided
the true vector is not constant (non-zero total sum of squares —
otherwise R² is undefined). -/
theorem c6_evaluator_metrics (y p : List ℚ) (hlen : y.length = p.length) :
    0 ≤ (evaluate_model y p).mae
  ∧ 0 ≤ (evaluate_model y p).rmse
  ∧ ((evaluate_model y p).mae : ℝ) ≤ (evaluate_model y p).rmse
  ∧ (p = y → sstot y ≠ 0 → (evaluate_model y p).r2 = some 1) := by
  have hmae : (evaluate_model y p).mae = mean_absolute_error y p := rfl
  have hrmse : (evaluate_model y p).rmse
      = Real.sqrt ((mean_squared_error y p : ℚ) : ℝ) := by
    show Real.sqrt ((mean_squared_error y p : ℚ) : ℝ)
        = Real.sqrt ((mean_squared_error y p : ℚ) : ℝ)
    rfl
  have hmaeQ : 0 ≤ mean_absolute_error y p :=
    div_nonneg (absErrs_nonneg y p) (by positivity)
  have hmseQ : 0 ≤ mean_squared_error y p :=
    div_nonneg (sqErrs_nonneg y p) (by positivity)
  refine ⟨hmae ▸ hmaeQ, hrmse ▸ Real.sqrt_nonneg _, ?_, ?_⟩
  · rw [hmae, hrmse]
    have hsq : (mean_absolute_error y p) ^ 2 ≤ mean_squared_error y p := by
      by_cases hn : y.length = 0
      · have h0 : ((y.length : ℚ)) = 0 := by exact_mod_cast hn
        rw [mean_absolute_error, mean_squared_error, h0, div_zero, div_zero]
        norm_num
      · have hzlen : (y.zip p).length = y.length := by
          rw [List.length_zip, hlen, min_self]
        have hcs := sq_sum_absErrs_le y p
        rw [hzlen] at hcs
        have hnpos : (0 : ℚ) < y.length := by
          exact_mod_cast Nat.pos_of_ne_zero hn
        rw [mean_absolute_error, mean_squared_error, div_pow,
          div_le_div_iff₀ (by positivity) hnpos]
        calc ((absErrs y p).sum) ^ 2 * (y.length : ℚ)
            ≤ ((y.length : ℚ) * (sqErrs y p).sum) * (y.length : ℚ) := by
              exact mul_le_mul_of_nonneg_right hcs hnpos.le
          _ = (sqErrs y p).sum * ((y.length : ℚ)) ^ 2 := by ring
    have hcast : ((mean_absolute_error y p : ℚ) : ℝ) ^ 2
        ≤ ((mean_squared_error y p : ℚ) : ℝ) := by
      exact_mod_cast hsq
    exact (Real.le_sqrt (by exact_mod_cast hmaeQ)
      (by exact_mod_cast hmseQ)).mpr hcast
  · intro hpy hss
    subst hpy
    have : (evaluate_model p p).r2 = r2_score p p := rfl
    rw [this, r2_score, if_neg hss, ssres_self]
    norm_num

/-- C6 witness: the non-negativity and RMSE ≥ MAE parts at the concrete
pair `([0, 2], [0, 1])`, and R² = 1 at the perfect non-constant pair
`([0, 2], [0, 2])`. -/
theorem c6_evaluator_metrics_witness :
    0 ≤ (evaluate_model [(0 : ℚ), 2] [(0 : ℚ), 1]).mae
  ∧ ((evaluate_model [(0 : ℚ), 2] [(0 : ℚ), 1]).mae : ℝ)
      ≤ (evaluate_model [(0 : ℚ), 2] [(0 : ℚ), 1]).rmse
  ∧ (evaluate_model [(0 : ℚ), 2] [(0 : ℚ), 2]).r2 = some 1 :=
  ⟨(c6_evaluator_metrics [0, 2] [0, 1] rfl).1,
   (c6_evaluator_metrics [0, 2] [0, 1] rfl).2.2.1,
   (c6_evaluator_metrics [0, 2] [0, 2] rfl).2.2.2 rfl
     (by norm_num [sstot, listMean])⟩

/-- C7: when all true values are equal (zero variance) the evaluator
still returns a metric triple — no exception — whose R² is the
undefined marker (`none`, the embedding of NaN), propagated to the
caller. -/
theorem c7_zero_variance (y p : List ℚ) (c : ℚ) (hy : y ≠ [])
    (hconst : ∀ a ∈ y, a = c) :
    sstot y = 0 ∧ (evaluate_model y p).r2 = none := by
  have hss := sstot_const_zero y c hy hconst
  refine ⟨hss, ?_⟩
  show r2_score y p = none
  rw [r2_score, if_pos hss]

/-- C7 witness: a constant true vector `[2, 2]` against predictions
`[1, 3]` produces an undefined R². -/
theorem c7_zero_variance_witness :
    sstot [(2 : ℚ), 2] = 0
  ∧ (evaluate_model [(2 : ℚ), 2] [(1 : ℚ), 3]).r2 = none :=
  c7_zero_variance [2, 2] [1, 3] 2 (by simp)
    (by intro a ha; simpa using ha)

theorem pipelineScalerStats_allsome (data : List Row) (name : String)
    (vals : List ℚ) (hcol : colOf data name = vals.map some)
    (hne : vals ≠ []) :
    pipelineScalerStats data name = some (scalerMeanVar vals) := by
  have hobs : (colOf data name).filterMap id = vals := by
    rw [hcol]
    simp
  obtain ⟨m, hm⟩ : ∃ m, medianQ ((colOf data name).filterMap id) = some m := by
    rw [medianQ, if_neg (hobs ▸ hne)]
    exact ⟨_, rfl⟩
  have himp : imputeCol (colOf data name) = colOf data name := by
    rw [imputeCol, hm, hcol]
    show List.map (fun x => some (x.getD m)) (List.map some vals)
        = List.map some vals
    rw [List.map_map]
    rfl
  rw [pipelineScalerStats, himp, hcol, fitScalerCol, if_pos (by simp)]
  have hfm : (vals.map some).filterMap id = vals := by
    simp
  rw [hfm]

/-- C3: the scaler is fit on the whole imputed feature column before
the split is performed, so the retained `(mean_, var_)` pair (the
standard deviation `scale_` is the square root of `var_`) is the mean
and population variance over all rows of the dataset — the rows later
assigned to the test partition included — and not over the training
partition only: the final conjunct exhibits a concrete dataset and
training subset on which the training-only statistics differ. -/
theorem c3_scaler_full_population (data : List Row) (name : String)
    (hobs : (colOf data name).filterMap id ≠ []) :
    (∃ filled : List ℚ,
        imputeCol (colOf data name) = filled.map some
      ∧ filled.length = data.length
      ∧ pipelineScalerStats data name
          = some (listMean filled,
              listMean (filled.map fun x => (x - listMean filled) ^ 2)))
  ∧ pipelineScalerStats [[("loc", Val.num 0)], [("loc", Val.num 10)]] "loc"
      ≠ trainOnlyScalerStats [[("loc", Val.num 0)], [("loc", Val.num 10)]]
          [0] "loc" := by
  constructor
  · obtain ⟨m, hm⟩ : ∃ m, medianQ ((colOf data name).filterMap id) = some m := by
      rw [medianQ, if_neg hobs]
      exact ⟨_, rfl⟩
    have himp : imputeCol (colOf data name)
        = (colOf data name).map fun x => some (x.getD m) := by
      rw [imputeCol, hm]
    have hmap : ((colOf data name).map fun x => some (x.getD m))
        = ((colOf data name).map fun x => x.getD m).map some := by
      rw [List.map_map]
      rfl
    refine ⟨(colOf data name).map fun x => x.getD m, ?_, ?_, ?_⟩
    · rw [himp, hmap]
    · simp [colOf]
    · rw [pipelineScalerStats, himp, hmap, fitScalerCol, if_pos (by simp)]
      have hfm : (((colOf data name).map fun x => x.getD m).map
          some).filterMap id = (colOf data name).map fun x => x.getD m := by
        simp
      rw [hfm]
      rfl
  · have hpipe : pipelineScalerStats
        [[("loc", Val.num 0)], [("loc", Val.num 10)]] "loc"
        = some (scalerMeanVar [0, 10]) :=
      pipelineScalerStats_allsome _ "loc" [0, 10] rfl (by simp)
    have htrain : trainOnlyScalerStats
        [[("loc", Val.num 0)], [("loc", Val.num 10)]] [0] "loc"
        = some (scalerMeanVar [0]) :=
      pipelineScalerStats_allsome _ "loc" [0] rfl (by simp)
    rw [hpipe, htrain]
    have h1 : scalerMeanVar [(0 : ℚ), 10] = (5, 25) := by
      norm_num [scalerMeanVar, listMean]
    have h2 : scalerMeanVar [(0 : ℚ)] = (0, 0) := by
      norm_num [scalerMeanVar, listMean]
    rw [h1, h2]
    simp

/-- C3 witness: a two-row dataset with loc values 0 and 10 satisfies
the hypothesis, and the retained statistics are the full-population
mean and variance over both rows. -/
theorem c3_scaler_full_population_witness :
    (colOf [[("loc", Val.num 0)], [("loc", Val.num 10)]] "loc").filterMap id
      ≠ []
  ∧ ∃ filled : List ℚ,
      imputeCol (colOf [[("loc", Val.num 0)], [("loc", Val.num 10)]] "loc")
        = filled.map some
      ∧ filled.length
          = ([[("loc", Val.num 0)], [("loc", Val.num 10)]] : List Row).length
      ∧ pipelineScalerStats [[("loc", Val.num 0)], [("loc", Val.num 10)]]
          "loc"
          = some (listMean filled,
              listMean (filled.map fun x => (x - listMean filled) ^ 2)) := by
  have hobs : (colOf [[("loc", Val.num 0)], [("loc", Val.num 10)]]
      "loc").filterMap id ≠ [] := by
    simp [colOf, Row.findNum, Row.find, List.lookup]
  exact ⟨hobs,
    (c3_scaler_full_population [[("loc", Val.num 0)], [("loc", Val.num 10)]]
      "loc" hobs).1⟩

/-- C10: imputation and standardization are applied to the
feature-matrix copy only — the pipeline leaves the dataframe's columns
and the target vector unchanged, and its parametric test predictions
are computed from the raw rows selected by test index, identical for
any two standardization functions applied to the feature matrix. -/
theorem c10_cocomo_pred_frame (data : List Row) (perm : List ℕ)
    (f g : List ℚ → List ℝ) (hperm : ∀ i ∈ perm, i < data.length) :
    (runPipeline data perm f).dataOut = data
  ∧ (runPipeline data perm f).targetY
      = data.map (fun r => r.getNum "actual")
  ∧ (runPipeline data perm f).cocomoPred
      = (runPipeline data perm g).cocomoPred
  ∧ (runPipeline data perm f).cocomoPred
      = (runPipeline data perm f).testIdx.map
          (fun i => calculate_cocomo_effort (data.getD i [])) := by
  refine ⟨rfl, rfl, rfl, ?_⟩
  show (train_test_split data.length perm (1/5)).2.map
      (fun i => (data.map calculate_cocomo_effort).getD i 0)
    = (train_test_split data.length perm (1/5)).2.map
      (fun i => calculate_cocomo_effort (data.getD i []))
  apply List.map_congr_left
  intro i hi
  have hip : i ∈ perm := List.mem_of_mem_take hi
  have hlt : i < data.length := hperm i hip
  have hltm : i < (data.map calculate_cocomo_effort).length := by
    simpa using hlt
  rw [List.getD_eq_getElem _ _ hltm, List.getElem_map,
    List.getD_eq_getElem _ _ hlt]

/-- C10 witness: a concrete two-row dataset, the permutation `[1, 0]`
and two different standardization functions give identical parametric
test predictions, computed from the raw rows. -/
theorem c10_cocomo_pred_frame_witness :
    (runPipeline [[("loc", Val.num 1)], [("loc", Val.num 2)]] [1, 0]
        (fun _ => [])).cocomoPred
      = (runPipeline [[("loc", Val.num 1)], [("loc", Val.num 2)]] [1, 0]
        (fun l => l.map fun q => ((q : ℝ) + 1))).cocomoPred
  ∧ (runPipeline [[("loc", Val.num 1)], [("loc", Val.num 2)]] [1, 0]
        (fun _ => [])).cocomoPred
      = (runPipeline [[("loc", Val.num 1)], [("loc", Val.num 2)]] [1, 0]
        (fun _ => [])).testIdx.map
          (fun i => calculate_cocomo_effort
            ([[("loc", Val.num 1)], [("loc", Val.num 2)]].getD i [])) := by
  have h := c10_cocomo_pred_frame
    [[("loc", Val.num 1)], [("loc", Val.num 2)]] [1, 0]
    (fun _ => []) (fun l => l.map fun q => ((q : ℝ) + 1))
    (by decide)
  exact ⟨h.2.2.1, h.2.2.2⟩

end Project
